import Mathlib

/-!
# cloudnative-pg: status-server URLs and the hibernation end-to-end checks

A shallow embedding of

* `pkg/management/url/url.go`: the constants and the functions `Local` and `Build`;
* `tests/e2e/hibernation_test.go`: the closed set of status messages and the check
  `verifySummaryInHibernationStatus`;
* the hibernation protocol the end-to-end test drives (`kubectl cnpg hibernate on`), which the
  `cnpg` plugin implements and which is modelled here from the specification.

Go strings are immutable byte sequences, so they are embedded as lists of bytes. A Go
run-time panic (indexing an empty string, a failed type assertion) is the result `none`.
-/

/-- A Go `string`: a sequence of bytes. -/
abbrev GoString := List UInt8

/-- The bytes of an ASCII string literal of the source. -/
def lit (s : String) : GoString := s.toList.map (fun c => c.toNat.toUInt8)

/-! ## Package `fmt` and `strings` (the parts the sources call) -/

namespace fmt

/-- The verb `%d` applied to an `int`: the decimal digits, with a leading `-` when negative. -/
def formatInt (n : Int) : GoString := lit (toString n)

end fmt

namespace strings

/-- `Index.go substr i s` scans `s`, whose first byte has index `i` in the whole string, for
the first position at which `substr` starts; `-1` when there is none. -/
def Index.go (substr : GoString) (i : Nat) : GoString → Int
  | [] => if substr = [] then (i : Int) else -1
  | c :: cs => if substr.isPrefixOf (c :: cs) then (i : Int) else Index.go substr (i + 1) cs

/-- `strings.Index(s, substr)`: the index of the first instance of `substr` in `s`, or `-1`
if `substr` is not present in `s`. -/
def Index (s substr : GoString) : Int := Index.go substr 0 s

/-- `strings.Contains(s, substr)`, which is `Index(s, substr) >= 0`: reports whether
`substr` is within `s`. -/
def Contains (s substr : GoString) : Bool := decide (Index s substr ≥ 0)

end strings

/-! ## `pkg/management/url/url.go` -/

namespace url

/-- StatusPort is the port for status HTTP requests. -/
def StatusPort : Int := 8000

/-- MetricsPort is the port for HTTP requests. -/
def MetricsPort : Int := 9187

/-- PathHealth is the URL path for Health State. -/
def PathHealth : GoString := lit "/healthz"

/-- PathReady is the URL path for Ready State. -/
def PathReady : GoString := lit "/readyz"

/-- PathPgStatus is the URL path for PostgreSQL Status. -/
def PathPgStatus : GoString := lit "/pg/status"

/-- PathPgBackup is the URL path for PostgreSQL Backup. -/
def PathPgBackup : GoString := lit "/pg/backup"

/-- PathMetrics is the URL path for Metrics. -/
def PathMetrics : GoString := lit "/metrics"

/-- Build builds an url given the hostname and the path, pointing to the status web server.

```go
if path[0] == '/' { path = path[1:] }
return fmt.Sprintf("http://%s:%d/%s", hostname, StatusPort, path)
```

`path[0]` on the empty string panics (index out of range): the result is `none`. -/
def Build (hostname path : GoString) : Option GoString :=
  match path with
  | [] => none
  | c :: rest =>
    let path := if c = '/'.toUInt8 then rest else c :: rest
    some (lit "http://" ++ hostname ++ lit ":" ++ fmt.formatInt StatusPort ++ lit "/" ++ path)

/-- Local builds an url for the provided path on localhost, pointing to the status web
server. -/
def Local (path : GoString) : Option GoString :=
  Build (lit "localhost") path

end url

/-! ## `tests/e2e/hibernation_test.go`: the status summary check -/

namespace e2e

/-- A value held in an `interface{}` after `json.Unmarshal` into `map[string]interface{}`:
`nil`, `bool`, `float64`, `string`, `[]interface{}` or `map[string]interface{}`. A number is
kept as the text of its literal; its value plays no role in the check. -/
inductive Value where
  | null
  | bool (b : Bool)
  | number (text : GoString)
  | string (s : GoString)
  | array (items : List Value)
  | object (fields : List (GoString × Value))

/-- A `map[string]interface{}`: the fields of a JSON object. -/
abbrev Object := List (GoString × Value)

/-- The index expression `m[key]` of a Go map: the value stored under `key`, or the zero
value (`nil`) when the key is absent. -/
def Object.index (m : Object) (key : GoString) : Value :=
  match m.find? (fun kv => kv.1 == key) with
  | some kv => kv.2
  | none => Value.null

/-- The type assertion `v.(interface{})`: it panics exactly on the `nil` interface. -/
def Value.assertInterface : Value → Option Value
  | Value.null => none
  | v => some v

/-- The type assertion `v.(map[string]interface{})`. -/
def Value.assertObject : Value → Option Object
  | Value.object fields => some fields
  | _ => none

/-- The type assertion `v.(string)`. -/
def Value.assertString : Value → Option GoString
  | Value.string s => some s
  | _ => none

/-- The message of an `Active` cluster, `clusterOffStatusMessage`. -/
def clusterOffStatusMessage : GoString := lit "No Hibernation. Cluster Deployed."

/-- The message of a `Hibernated` cluster, `clusterOnStatusMessage`. -/
def clusterOnStatusMessage : GoString := lit "Cluster Hibernated"

/-- The key `summaryInStatus` of the status report. -/
def summaryInStatus : GoString := lit "summary"

/-- The reported status string of a status report:
`statusOut[string(summaryInStatus)].(interface{}).(map[string]interface{})["status"].(string)`.
Each failed type assertion is a panic (`none`). -/
def actualStatus (statusOut : Object) : Option GoString := do
  let summary ← (statusOut.index summaryInStatus).assertInterface
  let fields ← summary.assertObject
  (Object.index fields (lit "status")).assertString

/-- Gomega's `Expect(actual).Should(BeEquivalentTo(true), optionalDescription)` for a `bool`
actual and one optional description. A met expectation returns `true` and does not look at
the description. On a failed match Gomega builds the failure text from the description with
the type assertion `optionalDescription[0].(string)`: with a string it reports the failure
(`some false`), with any other value the assertion panics (`none`). -/
def Should (actual : Bool) (optionalDescription : Value) : Option Bool :=
  if actual then some true
  else
    match optionalDescription.assertString with
    | some _ => some false
    | none => none

/-- The check of `verifySummaryInHibernationStatus(message)` on the status report
`statusOut` returned by `kubectl cnpg hibernate status -ojson`:
`Expect(strings.Contains(string(message), actualStatus)).Should(BeEquivalentTo(true), statusOut)`.
The optional description handed to `Should` is the map `statusOut` itself. The result is
`some true` when the expectation is met and `none` when the run panics, be it while reading
the report or while Gomega builds the text of a failed expectation from the map. -/
def verifySummaryInHibernationStatus (message : GoString) (statusOut : Object) : Option Bool :=
  match actualStatus statusOut with
  | none => none
  | some actual => Should (strings.Contains message actual) (Value.object statusOut)

/-- A status report whose summary carries the status string `s`. -/
def statusReport (s : GoString) : Object :=
  [(summaryInStatus, Value.object [(lit "status", Value.string s)])]

end e2e

/-! ## The hibernation protocol (`kubectl cnpg hibernate on`) -/

namespace hibernate

/-- Modelled from the spec: the role of a StorageClaim, `utils.PVCRole`, of which the test
uses `utils.PVCRolePgData` and `utils.PVCRolePgWal`. -/
inductive PVCRole where
  | PgData
  | PgWal
  deriving DecidableEq, Repr

/-- Modelled from the spec: the key of an annotation. The two fixed keys of the persisted
state layout are `utils.HibernatePgControlDataAnnotationName` and
`utils.HibernateClusterManifestAnnotationName`; every other key is `other`. -/
inductive AnnotationKey where
  | HibernatePgControlData
  | HibernateClusterManifest
  | other (key : GoString)
  deriving DecidableEq

/-- Modelled from the spec: annotations, a mapping of opaque keys to opaque string values. -/
abbrev Annotations := List (AnnotationKey × GoString)

/-- Modelled from the spec: the type `apiv1.Cluster` of package `api/v1`. The Cluster is the
declarative specification plus observed status of one database cluster: its identity, its
topology (instance count, storage roles requested) and a pointer to the currently elected
primary instance. -/
structure Cluster where
  name : GoString
  instances : Nat
  roles : List PVCRole
  currentPrimary : GoString
  deriving DecidableEq

/-- Modelled from the spec: the StorageClaim (`corev1.PersistentVolumeClaim`), a durable
volume bound to one instance, tagged with a role; it has a unique identity (`uid`) and may
carry annotations. -/
structure PersistentVolumeClaim where
  name : GoString
  uid : GoString
  instanceName : GoString
  role : PVCRole
  annotations : Annotations
  deriving DecidableEq

/-- Modelled from the spec: a member of the DependentResourceSet, the non-volume objects
owned by a Cluster, as a closed set of tagged variants: compute instances, the monitoring
configuration object, access credentials and the two access-control objects. -/
inductive Dependent where
  | Pod (name : GoString)
  | ConfigMap
  | Secret (name : GoString)
  | Role
  | RoleBinding
  deriving DecidableEq

/-- Modelled from the spec: the part of the object store that belongs to one cluster identity
(the namespace of the test): the live Cluster object if any, the members of its
DependentResourceSet and the StorageClaims. The store is reliable: a write or a deletion has
taken effect when the call returns. -/
structure Store where
  cluster : Option Cluster
  dependents : List Dependent
  pvcs : List PersistentVolumeClaim
  deriving DecidableEq

/-- Modelled from the spec: an object named in an error report. -/
inductive ObjectRef where
  | Cluster (name : GoString)
  | Dependent (d : Dependent)
  | Claim (name : GoString)
  deriving DecidableEq

/-- Modelled from the spec: the error kinds of hibernate(on). `SerializationError` and
`TeardownIncompleteError` are those of the error taxonomy; `NoLiveClusterError` is the failure
of the precondition of hibernate(on), a live Cluster exists, for which the taxonomy has no
name. -/
inductive Error where
  | NoLiveClusterError
  | SerializationError
  | TeardownIncompleteError (remaining : List ObjectRef)
  deriving DecidableEq

/-- Modelled from the spec: a failed invocation, the error kind together with the store as
the invocation leaves it. -/
structure Failure where
  kind : Error
  store : Store

/-- Modelled from the spec: reading an annotation, the value stored under a key, if any. -/
def annotationValue (key : AnnotationKey) (anns : Annotations) : Option GoString :=
  (anns.find? (fun kv => kv.1 == key)).map (fun kv => kv.2)

/-- Modelled from the spec: writing an annotation, `value` under `key`, replacing what was
stored there. -/
def annotationWrite (key : AnnotationKey) (value : GoString) (anns : Annotations) : Annotations :=
  (key, value) :: anns.filter (fun kv => !(kv.1 == key))

/-- Modelled from the spec: the claim carries both the HibernationManifest and the
ControlSnapshot annotation. -/
def hasHibernationAnnotations (p : PersistentVolumeClaim) : Bool :=
  (annotationValue AnnotationKey.HibernateClusterManifest p.annotations).isSome &&
    (annotationValue AnnotationKey.HibernatePgControlData p.annotations).isSome

/-- Modelled from the spec: lookup of a member of the DependentResourceSet in the object
store; `none` is "not found". -/
def Store.get (s : Store) (d : Dependent) : Option Dependent :=
  s.dependents.find? (fun x => x == d)

/-- Modelled from the spec: the last-known Cluster of a store without a live Cluster object:
the HibernationManifest is read from the data claim and deserialized by `decode`, the
decoder of the Metadata Codec. -/
def lastKnownCluster (decode : GoString → Option Cluster) (s : Store) : Option Cluster :=
  match s.pvcs.find? (fun p => p.role == PVCRole.PgData) with
  | none => none
  | some p =>
    match annotationValue AnnotationKey.HibernateClusterManifest p.annotations with
    | none => none
    | some manifest => decode manifest

/-- Modelled from the spec: the `Hibernated` invariant. No live Cluster object exists, and
exactly the StorageClaims of the last-known primary, one per requested role, exist and carry
both the HibernationManifest and the ControlSnapshot annotation. -/
def isHibernated (decode : GoString → Option Cluster) (s : Store) : Bool :=
  s.cluster.isNone &&
    match lastKnownCluster decode s with
    | none => false
    | some c =>
      s.pvcs.all (fun p => p.instanceName == c.currentPrimary && hasHibernationAnnotations p) &&
        (s.pvcs.map (fun p => p.role)).isPerm c.roles

/-- Modelled from the spec: step (1) of hibernate(on), the StorageClaims of the primary
instance (all roles). -/
def primaryClaims (primary : GoString) (s : Store) : List PersistentVolumeClaim :=
  s.pvcs.filter (fun p => p.instanceName == primary)

/-- Modelled from the spec: step (3) of hibernate(on) on one claim, which writes both
annotations. -/
def annotate (manifest snapshot : GoString) (p : PersistentVolumeClaim) :
    PersistentVolumeClaim :=
  let withSnapshot := annotationWrite AnnotationKey.HibernatePgControlData snapshot p.annotations
  { p with annotations := annotationWrite AnnotationKey.HibernateClusterManifest manifest withSnapshot }

/-- Modelled from the spec: step (3) of hibernate(on), which writes the HibernationManifest
and the ControlSnapshot as annotations onto the StorageClaims of the primary (all roles). -/
def writeAnnotations (primary manifest snapshot : GoString) (s : Store) : Store :=
  { s with pvcs := s.pvcs.map (fun p =>
      if p.instanceName == primary then annotate manifest snapshot p else p) }

/-- Modelled from the spec: the Resource Sweep Engine on hibernate(on). Given the exclusion
set (the StorageClaims of the primary) it deletes the Cluster object and every object of the
DependentResourceSet, and then, the compute instances being gone, every StorageClaim that is
not in the exclusion set. -/
def sweep (exclusion : List PersistentVolumeClaim) (s : Store) : Store :=
  let s1 : Store := { s with cluster := none }
  let s2 : Store := { s1 with dependents := [] }
  { s2 with pvcs := s2.pvcs.filter (fun p => exclusion.contains p) }

/-- Modelled from the spec: step (5) of hibernate(on), the targeted objects that a follow-up
existence check still finds. -/
def remaining (exclusion : List PersistentVolumeClaim) (s : Store) : List ObjectRef :=
  (match s.cluster with
    | some c => [ObjectRef.Cluster c.name]
    | none => []) ++
  s.dependents.map ObjectRef.Dependent ++
  (s.pvcs.filter (fun p => !exclusion.contains p)).map (fun p => ObjectRef.Claim p.name)

/-- Modelled from the spec: hibernate(on) of the `cnpg` plugin (`kubectl cnpg hibernate on`).
`encode` and `decode` are the Metadata Codec (`encode` is `json.Marshal` of the Cluster
object, failing on a malformed Cluster) and `pgControlData` is the control metadata captured
from the database engine.

The state is discovered first. When no live Cluster exists, an already `Hibernated` store is
a success that writes nothing, and anything else fails the precondition. With a live Cluster:
(1) identify the current primary and its StorageClaims; (2) serialize the Cluster into the
HibernationManifest, aborting before any mutation when that fails, and capture the
ControlSnapshot; (3) write both as annotations onto the claims of the primary; (4) sweep the
Cluster object and its DependentResourceSet, excluding the claims of the primary; (5) verify
that every deletion has taken effect, failing with the objects that remain. -/
def hibernateOn (encode : Cluster → Option GoString) (decode : GoString → Option Cluster)
    (pgControlData : GoString) (s : Store) : Except Failure Store :=
  match s.cluster with
  | none =>
    if isHibernated decode s then Except.ok s
    else Except.error { kind := Error.NoLiveClusterError, store := s }
  | some c =>
    match encode c with
    | none => Except.error { kind := Error.SerializationError, store := s }
    | some manifest =>
      let annotated := writeAnnotations c.currentPrimary manifest pgControlData s
      let exclusion := primaryClaims c.currentPrimary annotated
      let swept := sweep exclusion annotated
      match remaining exclusion swept with
      | [] => Except.ok swept
      | r :: rs =>
        Except.error { kind := Error.TeardownIncompleteError (r :: rs), store := swept }

/-- The store as an invocation leaves it, whether it succeeded or failed. -/
def storeAfter (r : Except Failure Store) : Store :=
  match r with
  | Except.ok s => s
  | Except.error f => f.store

/-- The identity of a claim and what it is bound to: UID, name, instance and role. -/
def identity (p : PersistentVolumeClaim) : GoString × GoString × GoString × PVCRole :=
  (p.uid, p.name, p.instanceName, p.role)

/-! ### A concrete cluster, as the end-to-end test sets it up -/

/-- A codec for the examples. -/
def sampleEncode (c : Cluster) : Option GoString :=
  some (lit "cluster:" ++ c.name ++ lit ",primary:" ++ c.currentPrimary)

/-- A cluster of two instances with a PG-WAL volume. -/
def sampleCluster : Cluster :=
  { name := lit "pg", instances := 2,
    roles := [PVCRole.PgData, PVCRole.PgWal], currentPrimary := lit "pg-1" }

/-- The decoder of the examples: it knows the manifest of `sampleCluster`. -/
def sampleDecode (manifest : GoString) : Option Cluster :=
  if manifest = lit "cluster:pg,primary:pg-1" then some sampleCluster else none

/-- The claim of an instance for a role, without annotations. -/
def sampleClaim (uid inst : String) (role : PVCRole) (suffix : String) : PersistentVolumeClaim :=
  { name := lit inst ++ lit suffix, uid := lit uid, instanceName := lit inst, role := role,
    annotations := [] }

/-- The store of the running cluster `sampleCluster`. -/
def sampleStore : Store :=
  { cluster := some sampleCluster,
    dependents := [Dependent.Pod (lit "pg-1"), Dependent.Pod (lit "pg-2"), Dependent.ConfigMap,
      Dependent.Secret (lit "pg-app"), Dependent.Secret (lit "pg-superuser"),
      Dependent.Role, Dependent.RoleBinding],
    pvcs := [sampleClaim "u1" "pg-1" PVCRole.PgData "", sampleClaim "u2" "pg-1" PVCRole.PgWal "-wal",
      sampleClaim "u3" "pg-2" PVCRole.PgData "", sampleClaim "u4" "pg-2" PVCRole.PgWal "-wal"] }

/-- The store after hibernate(on) of `sampleStore`. -/
def sampleHibernated : Store :=
  { cluster := none,
    dependents := [],
    pvcs := [
      { name := lit "pg-1", uid := lit "u1", instanceName := lit "pg-1", role := PVCRole.PgData,
        annotations := [(AnnotationKey.HibernateClusterManifest, lit "cluster:pg,primary:pg-1"),
          (AnnotationKey.HibernatePgControlData, lit "pg_control")] },
      { name := lit "pg-1-wal", uid := lit "u2", instanceName := lit "pg-1", role := PVCRole.PgWal,
        annotations := [(AnnotationKey.HibernateClusterManifest, lit "cluster:pg,primary:pg-1"),
          (AnnotationKey.HibernatePgControlData, lit "pg_control")] }] }

/-- A store with nothing in it: no Cluster object, no dependents, no StorageClaims. -/
def emptyStore : Store :=
  { cluster := none, dependents := [], pvcs := [] }

/-- A store with the live Cluster `sampleCluster` whose primary `pg-1` has no StorageClaim;
the only claims are those of the replica `pg-2`. -/
def bareStore : Store :=
  { cluster := some sampleCluster,
    dependents := [Dependent.Pod (lit "pg-1"), Dependent.Pod (lit "pg-2")],
    pvcs := [sampleClaim "u3" "pg-2" PVCRole.PgData "", sampleClaim "u4" "pg-2" PVCRole.PgWal "-wal"] }

end hibernate

/-! ## Properties of `url.go` -/

namespace url

/-- The port as `Sprintf` prints it. -/
theorem formatInt_StatusPort : fmt.formatInt StatusPort = lit "8000" := by decide

/-- The text `Build` yields on a non-empty path, with the port printed. -/
theorem Build_cons (h : GoString) (c : UInt8) (rest : GoString) :
    Build h (c :: rest) =
      some (lit "http://" ++ h ++ lit ":8000/" ++ (if c = '/'.toUInt8 then rest else c :: rest)) := by
  have hport : lit ":8000/" = lit ":" ++ lit "8000" ++ lit "/" := by decide
  simp only [Build, formatInt_StatusPort, hport, List.append_assoc]

/-- C6: for every hostname `h` and every non-empty path `p`, `Build(h, p)` returns
`"http://" ++ h ++ ":8000/" ++ p'`, where `p'` is `p` without its first byte when that byte is
`'/'` and `p` otherwise; only one slash is removed, so `Build(h, "//x") = "http://h:8000//x"`;
the port printed is `StatusPort` and the URL is never the one with `MetricsPort` (9187). -/
theorem Build_status_url (h p : GoString) (hp : p ≠ []) :
    Build h p = some (lit "http://" ++ h ++ lit ":8000/" ++
        (if p.head? = some '/'.toUInt8 then p.drop 1 else p)) ∧
      Build h (lit "//x") = some (lit "http://" ++ h ++ lit ":8000//x") ∧
      Build h p = some (lit "http://" ++ h ++ lit ":" ++ fmt.formatInt StatusPort ++ lit "/" ++
        (if p.head? = some '/'.toUInt8 then p.drop 1 else p)) ∧
      Build h p ≠ some (lit "http://" ++ h ++ lit ":" ++ fmt.formatInt MetricsPort ++ lit "/" ++
        (if p.head? = some '/'.toUInt8 then p.drop 1 else p)) := by
  obtain ⟨c, rest, rfl⟩ := List.exists_cons_of_ne_nil hp
  have hx : lit "//x" = '/'.toUInt8 :: lit "/x" := by decide
  have h2 : lit ":8000//x" = lit ":8000/" ++ lit "/x" := by decide
  have h3 : lit ":8000/" = lit ":" ++ fmt.formatInt StatusPort ++ lit "/" := by decide
  have hm : fmt.formatInt MetricsPort = lit "9187" := by decide
  refine ⟨?_, ?_, ?_, ?_⟩
  · rw [Build_cons]; simp
  · rw [hx, Build_cons, h2]; simp
  · rw [Build_cons, h3]; simp
  · rw [Build_cons, hm]
    intro heq
    have h4 : lit ":8000/" = lit ":" ++ lit "8000" ++ lit "/" := by decide
    rw [h4] at heq
    simp only [List.head?_cons, Option.some.injEq, List.drop_succ_cons, List.drop_zero,
      List.append_assoc, List.append_cancel_left_eq] at heq
    have h5 : lit "8000" ++ (lit "/" ++ (if c = '/'.toUInt8 then rest else c :: rest)) =
        lit "9187" ++ (lit "/" ++ (if c = '/'.toUInt8 then rest else c :: rest)) := by
      simpa using heq
    have h6 := List.append_cancel_right h5
    exact absurd h6 (by decide)

/-- C7: a leading slash on the path does not change the URL: for every hostname `h` and
every non-empty path `p` that does not start with `'/'`, `Build(h, "/" ++ p)` and
`Build(h, p)` return the same URL, `"http://" ++ h ++ ":8000/" ++ p`. -/
theorem Build_leading_slash (h p : GoString) (hp : p ≠ []) (hs : p.head? ≠ some '/'.toUInt8) :
    Build h (lit "/" ++ p) = Build h p ∧
      Build h p = some (lit "http://" ++ h ++ lit ":8000/" ++ p) := by
  obtain ⟨c, rest, rfl⟩ := List.exists_cons_of_ne_nil hp
  have hc : c ≠ '/'.toUInt8 := by
    intro hc
    exact hs (by simp [hc])
  have hx : lit "/" ++ c :: rest = '/'.toUInt8 :: (c :: rest) := by
    have : lit "/" = ['/'.toUInt8] := by decide
    simp [this]
  rw [hx, Build_cons, Build_cons]
  simp [hc]

/-- The instance of `Build_leading_slash` at host `localhost` and path `healthz`. -/
theorem Build_leading_slash_witness :
    lit "healthz" ≠ [] ∧ (lit "healthz").head? ≠ some '/'.toUInt8 ∧
      Build (lit "localhost") (lit "/" ++ lit "healthz") = Build (lit "localhost") (lit "healthz") ∧
      Build (lit "localhost") (lit "healthz") =
        some (lit "http://" ++ lit "localhost" ++ lit ":8000/" ++ lit "healthz") :=
  ⟨by decide, by decide,
    Build_leading_slash (lit "localhost") (lit "healthz") (by decide) (by decide)⟩

/-- The instance of `Build_status_url` at host `example.org` and path `/pg/status`. -/
theorem Build_status_url_witness :
    lit "/pg/status" ≠ [] ∧
      Build (lit "example.org") (lit "/pg/status") =
        some (lit "http://" ++ lit "example.org" ++ lit ":8000/" ++ lit "pg/status") ∧
      Build (lit "example.org") (lit "/pg/status") ≠
        some (lit "http://" ++ lit "example.org" ++ lit ":" ++ fmt.formatInt MetricsPort ++
          lit "/" ++ lit "pg/status") :=
  have h := Build_status_url (lit "example.org") (lit "/pg/status") (by decide)
  ⟨by decide, h.1, h.2.2.2⟩

/-- C8: `Local` builds the URL on localhost: for every non-empty path `p`,
`Local(p) = Build("localhost", p)`; when `p` starts with `'/'` the URL is
`"http://localhost:8000" ++ p`, which is the case of each of the constants `PathHealth`,
`PathReady`, `PathPgStatus`, `PathPgBackup` and `PathMetrics`. -/
theorem Local_on_localhost (p : GoString) (hp : p ≠ []) :
    Local p = Build (lit "localhost") p ∧
      (p.head? = some '/'.toUInt8 → Local p = some (lit "http://localhost:8000" ++ p)) ∧
      Local PathHealth = some (lit "http://localhost:8000/healthz") ∧
      Local PathReady = some (lit "http://localhost:8000/readyz") ∧
      Local PathPgStatus = some (lit "http://localhost:8000/pg/status") ∧
      Local PathPgBackup = some (lit "http://localhost:8000/pg/backup") ∧
      Local PathMetrics = some (lit "http://localhost:8000/metrics") := by
  refine ⟨rfl, ?_, by decide, by decide, by decide, by decide, by decide⟩
  intro hs
  obtain ⟨c, rest, rfl⟩ := List.exists_cons_of_ne_nil hp
  have hc : c = '/'.toUInt8 := by simpa using hs
  have hx : lit "http://localhost:8000" ++ c :: rest =
      lit "http://" ++ lit "localhost" ++ lit ":8000/" ++ rest := by
    have : lit "http://localhost:8000" ++ ['/'.toUInt8] =
        lit "http://" ++ lit "localhost" ++ lit ":8000/" := by decide
    rw [← this, hc]
    simp
  rw [Local, Build_cons, hx]
  simp [hc]

/-- The instance of `Local_on_localhost` at the path `/pg/status`. -/
theorem Local_on_localhost_witness :
    lit "/pg/status" ≠ [] ∧ (lit "/pg/status").head? = some '/'.toUInt8 ∧
      Local (lit "/pg/status") = Build (lit "localhost") (lit "/pg/status") ∧
      Local (lit "/pg/status") = some (lit "http://localhost:8000" ++ lit "/pg/status") :=
  have h := Local_on_localhost (lit "/pg/status") (by decide)
  ⟨by decide, by decide, h.1, h.2.1 (by decide)⟩

end url

/-! ## Properties of the status summary check -/

namespace strings

/-- The scan finds a position exactly when `substr` occurs in `s` as a contiguous block. -/
theorem Index_go_nonneg_iff (substr s : GoString) (i : Nat) :
    0 ≤ Index.go substr i s ↔ substr <:+: s := by
  induction s generalizing i with
  | nil =>
    by_cases h : substr = []
    · simp [Index.go, h]
    · simp [Index.go, h]
  | cons c cs ih =>
    by_cases hpre : substr.isPrefixOf (c :: cs) = true
    · have hp : substr <+: c :: cs := List.isPrefixOf_iff_prefix.mp hpre
      simp only [Index.go, hpre, if_true]
      exact ⟨fun _ => hp.isInfix, fun _ => Int.ofNat_nonneg i⟩
    · have hp : ¬ substr <+: c :: cs := fun hp => hpre (List.isPrefixOf_iff_prefix.mpr hp)
      simp only [Index.go, hpre]
      rw [if_neg (by simp), ih (i + 1), List.infix_cons_iff]
      exact ⟨Or.inr, fun hor => hor.resolve_left hp⟩

/-- `Contains(s, substr)` holds exactly when `substr` is a contiguous block of `s`. -/
theorem Contains_iff (s substr : GoString) : Contains s substr = true ↔ substr <:+: s := by
  simp only [Contains, Index, decide_eq_true_eq, ge_iff_le]
  exact Index_go_nonneg_iff substr s 0

end strings

namespace e2e

/-- C4, as the code has it: for every expected message `m` and every status report whose
status string is `s`, the check of `verifySummaryInHibernationStatus` succeeds if and only
if `s` occurs in `m` as a contiguous block of bytes; it succeeds when `s = m`. -/
theorem verifySummary_iff_substring (m s : GoString) (statusOut : Object)
    (hs : actualStatus statusOut = some s) :
    (verifySummaryInHibernationStatus m statusOut = some true ↔ s <:+: m) ∧
      (s = m → verifySummaryInHibernationStatus m statusOut = some true) := by
  have hiff : verifySummaryInHibernationStatus m statusOut = some true ↔ s <:+: m := by
    rw [← strings.Contains_iff]
    cases hc : strings.Contains m s <;>
      simp [verifySummaryInHibernationStatus, hs, Should, Value.assertString, hc]
  exact ⟨hiff, fun h => hiff.mpr (h ▸ List.infix_refl s)⟩

/-- The instance of `verifySummary_iff_substring` at the message of a hibernated cluster and
a report of that very status. -/
theorem verifySummary_iff_substring_witness :
    actualStatus (statusReport clusterOnStatusMessage) = some clusterOnStatusMessage ∧
      (verifySummaryInHibernationStatus clusterOnStatusMessage
          (statusReport clusterOnStatusMessage) = some true ↔
        clusterOnStatusMessage <:+: clusterOnStatusMessage) ∧
      verifySummaryInHibernationStatus clusterOnStatusMessage
        (statusReport clusterOnStatusMessage) = some true :=
  have h := verifySummary_iff_substring clusterOnStatusMessage clusterOnStatusMessage
    (statusReport clusterOnStatusMessage) (by decide)
  ⟨by decide, h.1, h.2 rfl⟩

/-- C4 fails as stated: the status string `"Cluster"` differs from both expected messages,
and the check succeeds on it with either message. -/
theorem verifySummary_accepts_proper_substring :
    ¬ (∀ m : GoString, m = clusterOffStatusMessage ∨ m = clusterOnStatusMessage →
        ∀ s : GoString,
          (verifySummaryInHibernationStatus m (statusReport s) = some true ↔ s = m)) ∧
      lit "Cluster" ≠ clusterOffStatusMessage ∧ lit "Cluster" ≠ clusterOnStatusMessage ∧
      verifySummaryInHibernationStatus clusterOffStatusMessage (statusReport (lit "Cluster"))
        = some true ∧
      verifySummaryInHibernationStatus clusterOnStatusMessage (statusReport (lit "Cluster"))
        = some true := by
  refine ⟨?_, by decide, by decide, by decide, by decide⟩
  intro hall
  have h := (hall clusterOnStatusMessage (Or.inr rfl) (lit "Cluster")).mp (by decide)
  exact absurd h (by decide)

/-- C9: neither of the two messages occurs in the other, so `strings.Contains` is false in
both directions, and the check with the `Active` message as expected does not accept a
reported status equal to the `Hibernated` message, nor the check with the `Hibernated`
message a reported status equal to the `Active` message: the expectation is not met, and the
run of the check ends there (in the panic of building the failure text from the map
`statusOut`). -/
theorem verifySummary_separates_messages :
    ¬ clusterOnStatusMessage <:+: clusterOffStatusMessage ∧
      ¬ clusterOffStatusMessage <:+: clusterOnStatusMessage ∧
      strings.Contains clusterOffStatusMessage clusterOnStatusMessage = false ∧
      strings.Contains clusterOnStatusMessage clusterOffStatusMessage = false ∧
      verifySummaryInHibernationStatus clusterOffStatusMessage
        (statusReport clusterOnStatusMessage) ≠ some true ∧
      verifySummaryInHibernationStatus clusterOnStatusMessage
        (statusReport clusterOffStatusMessage) ≠ some true ∧
      verifySummaryInHibernationStatus clusterOffStatusMessage
        (statusReport clusterOnStatusMessage) = none ∧
      verifySummaryInHibernationStatus clusterOnStatusMessage
        (statusReport clusterOffStatusMessage) = none := by
  have h1 : strings.Contains clusterOffStatusMessage clusterOnStatusMessage = false := by decide
  have h2 : strings.Contains clusterOnStatusMessage clusterOffStatusMessage = false := by decide
  have h3 : verifySummaryInHibernationStatus clusterOffStatusMessage
      (statusReport clusterOnStatusMessage) = none := by decide
  have h4 : verifySummaryInHibernationStatus clusterOnStatusMessage
      (statusReport clusterOffStatusMessage) = none := by decide
  refine ⟨?_, ?_, h1, h2, ?_, ?_, h3, h4⟩
  · intro h
    rw [← strings.Contains_iff, h1] at h
    exact Bool.noConfusion h
  · intro h
    rw [← strings.Contains_iff, h2] at h
    exact Bool.noConfusion h
  · rw [h3]; exact fun h => Option.noConfusion h
  · rw [h4]; exact fun h => Option.noConfusion h

end e2e

/-! ## Properties of hibernate(on) -/

namespace hibernate

/-- Reading a key just written yields the value written. -/
theorem annotationValue_write_same (k : AnnotationKey) (v : GoString) (anns : Annotations) :
    annotationValue k (annotationWrite k v anns) = some v := by
  simp [annotationValue, annotationWrite]

/-- Writing a key leaves the value under another key as it was. -/
theorem annotationValue_write_other (k k2 : AnnotationKey) (v : GoString) (anns : Annotations)
    (hk : k2 ≠ k) : annotationValue k (annotationWrite k2 v anns) = annotationValue k anns := by
  have h1 : (k2 == k) = false := by simpa using hk
  have h2 : ∀ l : Annotations,
      List.find? (fun kv => kv.1 == k) (l.filter (fun kv => !(kv.1 == k2))) =
        List.find? (fun kv => kv.1 == k) l := by
    intro l
    induction l with
    | nil => rfl
    | cons a l ih =>
      by_cases ha : a.1 = k2
      · have hak : (a.1 == k) = false := by simpa [ha] using hk
        simp [List.filter_cons, List.find?_cons, ha, hak, ih, h1]
      · have : (a.1 == k2) = false := by simpa using ha
        simp [List.filter_cons, List.find?_cons, this, ih]
  simp only [annotationValue, annotationWrite, List.find?_cons, h1, h2]

/-- After step (3) a claim carries the manifest and the snapshot that were written. -/
theorem annotate_values (m cd : GoString) (p : PersistentVolumeClaim) :
    annotationValue AnnotationKey.HibernateClusterManifest (annotate m cd p).annotations = some m ∧
      annotationValue AnnotationKey.HibernatePgControlData (annotate m cd p).annotations = some cd := by
  constructor
  · simp only [annotate]
    exact annotationValue_write_same _ _ _
  · simp only [annotate]
    rw [annotationValue_write_other _ _ _ _ (by decide)]
    exact annotationValue_write_same _ _ _

/-- Keeping the members of a sublist selected by a test selects by that test. -/
theorem filter_contains_filter (P : PersistentVolumeClaim → Bool)
    (l : List PersistentVolumeClaim) :
    l.filter (fun p => (l.filter P).contains p) = l.filter P := by
  apply List.filter_congr
  intro p hp
  by_cases hP : P p = true
  · simp [hP, hp]
  · simp [hP]

/-- The claims of the primary after step (3) are its claims before, annotated. -/
theorem primaryClaims_writeAnnotations (primary m cd : GoString) (s : Store) :
    primaryClaims primary (writeAnnotations primary m cd s) =
      (primaryClaims primary s).map (annotate m cd) := by
  simp only [primaryClaims, writeAnnotations]
  induction s.pvcs with
  | nil => rfl
  | cons p l ih =>
    simp only [beq_iff_eq] at ih
    by_cases hp : p.instanceName = primary
    · have : (annotate m cd p).instanceName = primary := hp
      simp [List.filter_cons, hp, this, ih]
    · simp [List.filter_cons, hp, ih]

/-- The store hibernate(on) returns for a live Cluster which serializes to `m`: only the
annotated claims of the primary are left. -/
theorem hibernateOn_live (encode : Cluster → Option GoString) (decode : GoString → Option Cluster)
    (cd : GoString) (s : Store) (c : Cluster) (m : GoString) (hc : s.cluster = some c)
    (hm : encode c = some m) :
    hibernateOn encode decode cd s = Except.ok
      { cluster := none, dependents := [],
        pvcs := (primaryClaims c.currentPrimary s).map (annotate m cd) } := by
  have hswept : sweep (primaryClaims c.currentPrimary (writeAnnotations c.currentPrimary m cd s))
      (writeAnnotations c.currentPrimary m cd s) =
      { cluster := none, dependents := [],
        pvcs := (primaryClaims c.currentPrimary s).map (annotate m cd) } := by
    rw [← primaryClaims_writeAnnotations]
    simp only [sweep, primaryClaims]
    rw [filter_contains_filter]
  have hrem : remaining (primaryClaims c.currentPrimary (writeAnnotations c.currentPrimary m cd s))
      { cluster := none, dependents := [],
        pvcs := (primaryClaims c.currentPrimary s).map (annotate m cd) } = [] := by
    rw [← primaryClaims_writeAnnotations]
    simp [remaining]
  simp only [hibernateOn, hc, hm, hswept, hrem]

/-- What a successful hibernate(on) of a live Cluster has done. -/
theorem hibernateOn_live_ok (encode : Cluster → Option GoString)
    (decode : GoString → Option Cluster) (cd : GoString) (s s1 : Store)
    (c : Cluster) (hc : s.cluster = some c)
    (hok : hibernateOn encode decode cd s = Except.ok s1) :
    ∃ m, encode c = some m ∧
      s1 = { cluster := none, dependents := [],
             pvcs := (primaryClaims c.currentPrimary s).map (annotate m cd) } := by
  cases hm : encode c with
  | none => simp [hibernateOn, hc, hm] at hok
  | some m =>
    rw [hibernateOn_live encode decode cd s c m hc hm] at hok
    exact ⟨m, rfl, (Except.ok.inj hok).symm⟩

/-- An annotated claim carries both annotations. -/
theorem hasHibernationAnnotations_annotate (m cd : GoString) (p : PersistentVolumeClaim) :
    hasHibernationAnnotations (annotate m cd p) = true := by
  simp [hasHibernationAnnotations, (annotate_values m cd p).1, (annotate_values m cd p).2]

/-- Without a live Cluster an invocation leaves the store as it found it. -/
theorem storeAfter_of_no_cluster (encode : Cluster → Option GoString)
    (decode : GoString → Option Cluster) (cd : GoString) (s : Store) (hc : s.cluster = none) :
    storeAfter (hibernateOn encode decode cd s) = s := by
  by_cases hh : isHibernated decode s = true
  · simp [hibernateOn, hc, hh, storeAfter]
  · simp [hibernateOn, hc, hh, storeAfter]

/-- An invocation leaves either no live Cluster or the store as it found it, and in the
second case it depends neither on the control data nor on the store having changed. -/
theorem storeAfter_cases (encode : Cluster → Option GoString)
    (decode : GoString → Option Cluster) (cd : GoString) (s : Store) :
    (storeAfter (hibernateOn encode decode cd s)).cluster = none ∨
      ∃ c, s.cluster = some c ∧ encode c = none ∧
        storeAfter (hibernateOn encode decode cd s) = s := by
  cases hc : s.cluster with
  | none =>
    left
    rw [storeAfter_of_no_cluster encode decode cd s hc]
    exact hc
  | some c =>
    cases hm : encode c with
    | none =>
      right
      exact ⟨c, rfl, hm, by simp [hibernateOn, hc, hm, storeAfter]⟩
    | some m =>
      left
      rw [hibernateOn_live encode decode cd s c m hc hm]
      rfl

/-- After hibernate(on) of a live Cluster whose primary has one claim per requested role,
the data role among them, under a codec that gives back the primary and the roles, the store
is `Hibernated`. -/
theorem isHibernated_after (decode : GoString → Option Cluster) (cd m : GoString) (s : Store)
    (c c2 : Cluster) (hd : decode m = some c2) (hprim : c2.currentPrimary = c.currentPrimary)
    (hr : c2.roles = c.roles)
    (hperm : ((primaryClaims c.currentPrimary s).map (fun p => p.role)).Perm c.roles)
    (hdata : PVCRole.PgData ∈ c.roles) :
    isHibernated decode
      { cluster := none, dependents := [],
        pvcs := (primaryClaims c.currentPrimary s).map (annotate m cd) } = true := by
  have hrole : ((primaryClaims c.currentPrimary s).map (annotate m cd)).map (fun p => p.role) =
      (primaryClaims c.currentPrimary s).map (fun p => p.role) := by
    rw [List.map_map]; rfl
  have hlast : lastKnownCluster decode
      { cluster := none, dependents := [],
        pvcs := (primaryClaims c.currentPrimary s).map (annotate m cd) } = some c2 := by
    simp only [lastKnownCluster]
    cases hf : List.find? (fun p => p.role == PVCRole.PgData)
        ((primaryClaims c.currentPrimary s).map (annotate m cd)) with
    | none =>
      exfalso
      have hmem : PVCRole.PgData ∈ (primaryClaims c.currentPrimary s).map (fun p => p.role) :=
        hperm.mem_iff.mpr hdata
      rw [← hrole] at hmem
      obtain ⟨q, hq, hqr⟩ := List.mem_map.mp hmem
      exact List.find?_eq_none.mp hf q hq (by simp [hqr])
    | some q =>
      obtain ⟨q0, _, rfl⟩ := List.mem_map.mp (List.mem_of_find?_eq_some hf)
      simp only [(annotate_values m cd q0).1, hd]
  have hall : ((primaryClaims c.currentPrimary s).map (annotate m cd)).all
      (fun p => p.instanceName == c2.currentPrimary && hasHibernationAnnotations p) = true := by
    rw [List.all_eq_true]
    intro p hp
    obtain ⟨q, hq, rfl⟩ := List.mem_map.mp hp
    have hq2 : q.instanceName = c.currentPrimary := by
      have := (List.mem_filter.mp hq).2
      simpa using this
    have hq3 : (annotate m cd q).instanceName = c2.currentPrimary := by rw [hprim]; exact hq2
    simp [hq3, hasHibernationAnnotations_annotate]
  have hp2 : (((primaryClaims c.currentPrimary s).map (annotate m cd)).map
      (fun p => p.role)).isPerm c2.roles = true := by
    rw [List.isPerm_iff, hrole, hr]
    exact hperm
  simp only [isHibernated, hlast, hall, hp2]
  rfl

/-- C2: for every store with a live Cluster whose primary has StorageClaims of roles
{PgData} or {PgData, PgWal}, hibernate(on) succeeds whenever the Cluster serializes, and
after it the StorageClaims that remain are exactly the claims the primary had before, one per
role and with unchanged UID (so there are 1 or 2 of them, as many as roles), while the Cluster
object is gone and a lookup of any member of the DependentResourceSet (pod, monitoring
ConfigMap, Secret, Role, RoleBinding) finds nothing. -/
theorem hibernateOn_post_state (encode : Cluster → Option GoString)
    (decode : GoString → Option Cluster) (cd : GoString) (s : Store)
    (c : Cluster) (hc : s.cluster = some c)
    (hroles : ((primaryClaims c.currentPrimary s).map (fun p => p.role)).Perm [PVCRole.PgData] ∨
      ((primaryClaims c.currentPrimary s).map (fun p => p.role)).Perm
        [PVCRole.PgData, PVCRole.PgWal]) :
    (∀ m, encode c = some m → ∃ s1, hibernateOn encode decode cd s = Except.ok s1) ∧
    ∀ s1, hibernateOn encode decode cd s = Except.ok s1 →
      s1.pvcs.map identity = (primaryClaims c.currentPrimary s).map identity ∧
      ((s1.pvcs.map (fun p => p.role)).Perm [PVCRole.PgData] ∨
        (s1.pvcs.map (fun p => p.role)).Perm [PVCRole.PgData, PVCRole.PgWal]) ∧
      (s1.pvcs.length = 1 ∨ s1.pvcs.length = 2) ∧
      s1.pvcs.length = ((primaryClaims c.currentPrimary s).map (fun p => p.role)).length ∧
      s1.cluster = none ∧ s1.dependents = [] ∧ ∀ d, s1.get d = none := by
  have hlen : (primaryClaims c.currentPrimary s).length = 1 ∨
      (primaryClaims c.currentPrimary s).length = 2 := by
    rcases hroles with h | h
    · left; simpa using h.length_eq
    · right; simpa using h.length_eq
  refine ⟨fun m hm => ⟨_, hibernateOn_live encode decode cd s c m hc hm⟩, ?_⟩
  intro s1 hok
  obtain ⟨m, _, rfl⟩ := hibernateOn_live_ok encode decode cd s s1 c hc hok
  have hrole : ((primaryClaims c.currentPrimary s).map (annotate m cd)).map (fun p => p.role) =
      (primaryClaims c.currentPrimary s).map (fun p => p.role) := by
    rw [List.map_map]; rfl
  have hid : ((primaryClaims c.currentPrimary s).map (annotate m cd)).map identity =
      (primaryClaims c.currentPrimary s).map identity := by
    rw [List.map_map]; rfl
  refine ⟨hid, ?_, ?_, ?_, rfl, rfl, fun d => rfl⟩
  · simpa only [hrole] using hroles
  · simpa using hlen
  · simp

/-- The instance of `hibernateOn_post_state` at the running cluster `sampleStore`, which has
a PG-WAL volume: the two claims `u1` and `u2` of the primary `pg-1` remain. -/
theorem hibernateOn_post_state_witness :
    sampleStore.cluster = some sampleCluster ∧
      (primaryClaims sampleCluster.currentPrimary sampleStore).map (fun p => p.role) =
        [PVCRole.PgData, PVCRole.PgWal] ∧
      hibernateOn sampleEncode sampleDecode (lit "pg_control") sampleStore =
        Except.ok sampleHibernated ∧
      sampleHibernated.pvcs.map identity =
        (primaryClaims sampleCluster.currentPrimary sampleStore).map identity ∧
      sampleHibernated.pvcs.length = 2 ∧
      sampleHibernated.cluster = none ∧ ∀ d, sampleHibernated.get d = none :=
  have h := (hibernateOn_post_state sampleEncode sampleDecode (lit "pg_control") sampleStore
    sampleCluster rfl (Or.inr (List.Perm.refl _))).2 sampleHibernated rfl
  ⟨rfl, rfl, rfl, h.1, rfl, h.2.2.2.2.1, h.2.2.2.2.2.2⟩

/-- C3: after a successful hibernate(on) of a live Cluster `c`, the claims that survive are
those of the primary, and every surviving claim, whatever its role, carries both the
`HibernatePgControlData` and the `HibernateClusterManifest` annotation; the value of the
manifest annotation is the serialization `encode c` of the Cluster object as it was read
before hibernation, and the value of the other one is the captured control data. -/
theorem hibernateOn_annotations (encode : Cluster → Option GoString)
    (decode : GoString → Option Cluster) (cd : GoString)
    (s s1 : Store) (c : Cluster) (hc : s.cluster = some c)
    (hok : hibernateOn encode decode cd s = Except.ok s1) :
    s1.pvcs.map identity = (primaryClaims c.currentPrimary s).map identity ∧
    ∃ m, encode c = some m ∧ ∀ p ∈ s1.pvcs,
      p.instanceName = c.currentPrimary ∧
      annotationValue AnnotationKey.HibernateClusterManifest p.annotations = some m ∧
      annotationValue AnnotationKey.HibernatePgControlData p.annotations = some cd := by
  obtain ⟨m, hm, rfl⟩ := hibernateOn_live_ok encode decode cd s s1 c hc hok
  have hid : ((primaryClaims c.currentPrimary s).map (annotate m cd)).map identity =
      (primaryClaims c.currentPrimary s).map identity := by
    rw [List.map_map]; rfl
  refine ⟨hid, m, hm, ?_⟩
  intro p hp
  obtain ⟨q, hq, rfl⟩ := List.mem_map.mp hp
  have hq2 : q.instanceName = c.currentPrimary := by
    have := (List.mem_filter.mp hq).2
    simpa using this
  exact ⟨hq2, (annotate_values m cd q).1, (annotate_values m cd q).2⟩

/-- The instance of `hibernateOn_annotations` at the running cluster `sampleStore`, where two
claims survive. -/
theorem hibernateOn_annotations_witness :
    sampleStore.cluster = some sampleCluster ∧
      hibernateOn sampleEncode sampleDecode (lit "pg_control") sampleStore =
        Except.ok sampleHibernated ∧
      sampleHibernated.pvcs.length = 2 ∧
      sampleHibernated.pvcs.map identity =
        (primaryClaims sampleCluster.currentPrimary sampleStore).map identity ∧
      ∃ m, sampleEncode sampleCluster = some m ∧ ∀ p ∈ sampleHibernated.pvcs,
        p.instanceName = sampleCluster.currentPrimary ∧
        annotationValue AnnotationKey.HibernateClusterManifest p.annotations = some m ∧
        annotationValue AnnotationKey.HibernatePgControlData p.annotations =
          some (lit "pg_control") :=
  have h := hibernateOn_annotations sampleEncode sampleDecode (lit "pg_control") sampleStore
    sampleHibernated sampleCluster rfl rfl
  ⟨rfl, rfl, rfl, h.1, h.2⟩

/-- On a `Hibernated` store hibernate(on) returns success and the store unchanged. -/
theorem hibernateOn_of_isHibernated (encode : Cluster → Option GoString)
    (decode : GoString → Option Cluster) (cd : GoString) (s : Store)
    (hh : isHibernated decode s = true) : hibernateOn encode decode cd s = Except.ok s := by
  have hnone : s.cluster = none := by
    cases hcl : s.cluster with
    | none => rfl
    | some c => simp [isHibernated, hcl] at hh
  simp [hibernateOn, hnone, hh]

/-- C5, as the model has it: for every store, the second of two hibernate(on) invocations in
succession leaves the store exactly as the first left it, so the surviving StorageClaims
have the same identities and no annotation value is written again; whenever the store after
the first invocation is `Hibernated` the second returns success; and that is the case after
hibernate(on) of a live Cluster which serializes, whose primary has one claim per requested
role, the data role among them, under a codec that gives back the primary and the roles. -/
theorem hibernateOn_twice (encode : Cluster → Option GoString)
    (decode : GoString → Option Cluster) (cd cd2 : GoString) (s : Store) :
    storeAfter (hibernateOn encode decode cd2 (storeAfter (hibernateOn encode decode cd s))) =
        storeAfter (hibernateOn encode decode cd s) ∧
      (storeAfter (hibernateOn encode decode cd2
          (storeAfter (hibernateOn encode decode cd s)))).pvcs.map identity =
        (storeAfter (hibernateOn encode decode cd s)).pvcs.map identity ∧
      (storeAfter (hibernateOn encode decode cd2
          (storeAfter (hibernateOn encode decode cd s)))).pvcs.map (fun p => p.annotations) =
        (storeAfter (hibernateOn encode decode cd s)).pvcs.map (fun p => p.annotations) ∧
      (isHibernated decode (storeAfter (hibernateOn encode decode cd s)) = true →
        hibernateOn encode decode cd2 (storeAfter (hibernateOn encode decode cd s)) =
          Except.ok (storeAfter (hibernateOn encode decode cd s))) ∧
      (∀ c m c2, s.cluster = some c → encode c = some m → decode m = some c2 →
        c2.currentPrimary = c.currentPrimary → c2.roles = c.roles →
        ((primaryClaims c.currentPrimary s).map (fun p => p.role)).Perm c.roles →
        PVCRole.PgData ∈ c.roles →
        hibernateOn encode decode cd s =
            Except.ok (storeAfter (hibernateOn encode decode cd s)) ∧
          isHibernated decode (storeAfter (hibernateOn encode decode cd s)) = true ∧
          hibernateOn encode decode cd2 (storeAfter (hibernateOn encode decode cd s)) =
            Except.ok (storeAfter (hibernateOn encode decode cd s))) := by
  have hsame : storeAfter (hibernateOn encode decode cd2
      (storeAfter (hibernateOn encode decode cd s))) =
      storeAfter (hibernateOn encode decode cd s) := by
    rcases storeAfter_cases encode decode cd s with h | ⟨c, hc, hm, h⟩
    · exact storeAfter_of_no_cluster encode decode cd2 _ h
    · rw [h]
      simp [hibernateOn, hc, hm, storeAfter]
  have hsucc : isHibernated decode (storeAfter (hibernateOn encode decode cd s)) = true →
      hibernateOn encode decode cd2 (storeAfter (hibernateOn encode decode cd s)) =
        Except.ok (storeAfter (hibernateOn encode decode cd s)) := by
    exact hibernateOn_of_isHibernated encode decode cd2 _
  refine ⟨hsame, by rw [hsame], by rw [hsame], hsucc, ?_⟩
  intro c m c2 hc hm hd hprim hr hperm hdata
  have hfirst := hibernateOn_live encode decode cd s c m hc hm
  have hhib := isHibernated_after decode cd m s c c2 hd hprim hr hperm hdata
  have hst : storeAfter (hibernateOn encode decode cd s) =
      { cluster := none, dependents := [],
        pvcs := (primaryClaims c.currentPrimary s).map (annotate m cd) } := by
    rw [hfirst]; rfl
  have hhib2 : isHibernated decode (storeAfter (hibernateOn encode decode cd s)) = true := by
    rw [hst]; exact hhib
  refine ⟨?_, hhib2, hsucc hhib2⟩
  rw [hst]
  exact hfirst

/-- The instance of `hibernateOn_twice` at the running cluster `sampleStore`, the second
invocation being given other control data: both invocations succeed, and the second returns
the store of the first. -/
theorem hibernateOn_twice_witness :
    sampleStore.cluster = some sampleCluster ∧
      sampleEncode sampleCluster = some (lit "cluster:pg,primary:pg-1") ∧
      sampleDecode (lit "cluster:pg,primary:pg-1") = some sampleCluster ∧
      storeAfter (hibernateOn sampleEncode sampleDecode (lit "pg_control") sampleStore) =
        sampleHibernated ∧
      hibernateOn sampleEncode sampleDecode (lit "pg_control") sampleStore =
        Except.ok (storeAfter
          (hibernateOn sampleEncode sampleDecode (lit "pg_control") sampleStore)) ∧
      isHibernated sampleDecode (storeAfter
        (hibernateOn sampleEncode sampleDecode (lit "pg_control") sampleStore)) = true ∧
      hibernateOn sampleEncode sampleDecode (lit "later") (storeAfter
          (hibernateOn sampleEncode sampleDecode (lit "pg_control") sampleStore)) =
        Except.ok (storeAfter
          (hibernateOn sampleEncode sampleDecode (lit "pg_control") sampleStore)) :=
  have h := (hibernateOn_twice sampleEncode sampleDecode (lit "pg_control") (lit "later")
    sampleStore).2.2.2.2 sampleCluster (lit "cluster:pg,primary:pg-1") sampleCluster
    rfl rfl rfl rfl rfl (List.Perm.refl _) (by decide)
  ⟨rfl, rfl, rfl, rfl, h.1, h.2.1, h.2.2⟩

/-- C5 fails as stated: the second invocation does not return success for every cluster
state. On the empty store both invocations fail the precondition of hibernate(on); on
`bareStore`, a live Cluster whose primary has no StorageClaim, the first invocation succeeds
and leaves no claim, and the second fails the precondition. -/
theorem hibernateOn_second_may_fail :
    ¬ (∀ s : Store, ∃ s2,
        hibernateOn sampleEncode sampleDecode (lit "later")
          (storeAfter (hibernateOn sampleEncode sampleDecode (lit "pg_control") s)) =
            Except.ok s2) ∧
      hibernateOn sampleEncode sampleDecode (lit "pg_control") emptyStore =
        Except.error { kind := Error.NoLiveClusterError, store := emptyStore } ∧
      hibernateOn sampleEncode sampleDecode (lit "later")
          (storeAfter (hibernateOn sampleEncode sampleDecode (lit "pg_control") emptyStore)) =
        Except.error { kind := Error.NoLiveClusterError, store := emptyStore } ∧
      hibernateOn sampleEncode sampleDecode (lit "pg_control") bareStore =
        Except.ok emptyStore ∧
      hibernateOn sampleEncode sampleDecode (lit "later")
          (storeAfter (hibernateOn sampleEncode sampleDecode (lit "pg_control") bareStore)) =
        Except.error { kind := Error.NoLiveClusterError, store := emptyStore } := by
  refine ⟨?_, rfl, rfl, rfl, rfl⟩
  intro hall
  obtain ⟨s2, h2⟩ := hall emptyStore
  have h3 : hibernateOn sampleEncode sampleDecode (lit "later")
      (storeAfter (hibernateOn sampleEncode sampleDecode (lit "pg_control") emptyStore)) =
      Except.error { kind := Error.NoLiveClusterError, store := emptyStore } := rfl
  exact Except.noConfusion (h3.symm.trans h2)

end hibernate
